import Mathlib

/-!
# Verification of gitoxide's multi-pack-index verifier and sideband reader

This file gives a shallow embedding of two subsystems of the repository:

* `git-pack/src/multi_index/verify.rs` — the multi-pack-index (MIDX)
  integrity verifier (`verify_integrity_inner`, `verify_integrity_fast`,
  `verify_integrity`), and
* `git-packetline/src/read/sidebands/async_io.rs` — the sideband
  demultiplexing reader (`WithSidebands`).

Machine integers are modelled as `Nat` (no arithmetic in the verifier can
overflow `u32`/`u64` in a way observable by the claims).  External
collaborators (checksum computation, per-pack index handles, bundle
verification, the progress sink) are abstracted as fields of a
configuration record; everything the claims speak about is translated
from the source.  Rust panics (`assert_eq!`, `unreachable!`) are made
observable through a dedicated `panic` result constructor.
-/

namespace Midx

/-- An object id: the byte sequence of the hash (`git_hash::ObjectId`).
Byte values are `Nat`s; only lexicographic comparison matters here. -/
abbrev Oid := List Nat

/-- Lexicographic comparison of two byte strings, mirroring
`ObjectId::cmp` (byte-array ordering, `rhs.cmp(lhs)` in the source). -/
def oidCmp : Oid → Oid → Ordering
  | [], [] => .eq
  | [], _ :: _ => .lt
  | _ :: _, [] => .gt
  | a :: as, b :: bs =>
    match compare a b with
    | .eq => oidCmp as bs
    | o => o

/-- Opaque payload of `crate::verify::checksum::Error` (external). -/
structure ChecksumError where
  tag : Nat
deriving DecidableEq

/-- Opaque payload of `crate::bundle::init::Error` (external). -/
structure BundleInitError where
  tag : Nat
deriving DecidableEq

/-- Opaque payload of `crate::index::verify::integrity::Error`
(the processor-level error of a single bundle's verifier, external). -/
structure IndexIntegrityError where
  tag : Nat
deriving DecidableEq

/-- Opaque payload of `crate::index::traverse::Statistics` for one pack. -/
structure Statistics where
  tag : Nat
deriving DecidableEq

/-- `multi_index::verify::integrity::Error` (verify.rs lines 15-40). -/
inductive IntegrityError
  | packOffsetMismatch (id : Oid) (expected_pack_offset actual_pack_offset : Nat)
  | multiIndexChecksum (e : ChecksumError)
  | indexIntegrity (e : IndexIntegrityError)
  | bundleInit (e : BundleInitError)
  | unexpectedObjectCount (actual expected : Nat)
  | oidNotFound (id : Oid)
  | outOfOrder (index : Nat)
  | fan (index : Nat)
  | empty
  | interrupted
deriving DecidableEq

/-- `crate::index::traverse::Error<E>` (external enum; its variants are
matched one by one in verify.rs lines 292-323). -/
inductive TraverseError (E : Type)
  | processor (e : E)
  | verifyChecksum (e : ChecksumError)
  | tree (tag : Nat)
  | treeTraversal (tag : Nat)
  | packDecode (id : Oid) (offset : Nat) (source : Nat)
  | packMismatch (expected actual : Oid)
  | packObjectMismatch (expected actual : Oid) (offset : Nat) (kind : Nat)
  | crc32Mismatch (expected actual : Nat) (offset : Nat) (kind : Nat)
  | interrupted
deriving DecidableEq

/-- A run result that makes Rust panics (`assert_eq!`, `unreachable!`)
observable next to ordinary `Result` values. -/
inductive RunResult (E O : Type)
  | panic (msg : String)
  | err (e : E)
  | ok (o : O)
deriving DecidableEq

/-- `multi_index::verify::integrity::Outcome` (verify.rs lines 43-50);
the pass-through progress instance is omitted. -/
structure Outcome where
  actual_index_checksum : Oid
  pack_traverse_statistics : List Statistics
deriving DecidableEq

/-- The in-memory MIDX handle (`multi_index::File`), restricted to the
fields read by `verify_integrity_inner`. -/
structure File where
  num_objects : Nat
  num_indices : Nat
  oid_at_index : Nat → Oid
  pack_id_and_pack_offset_at_index : Nat → Nat × Nat
  fan : List Nat

/-- A per-pack index handle (`crate::index::File` respectively the
`index` component of a `crate::Bundle`), restricted to the two methods
used by the verifier. -/
structure PackIndex where
  lookup : Oid → Option Nat
  pack_offset_at_index : Nat → Nat

/-- The verifier's environment: the MIDX itself plus the abstracted
external collaborators.  `shouldInterrupt` is the cancellation flag; the
verifier loads it exactly once per pack iteration (verify.rs line 268),
so the flag reads are indexed by `pack_id`.  `openIndex` abstracts
`Bundle::at` / `index::File::at` for the index named
`index_names()[pack_id]`; `bundleVerify` abstracts
`bundle.verify_integrity(..)` for that pack. -/
structure Config where
  midx : File
  checksumResult : Except ChecksumError Oid
  openIndex : Nat → Except BundleInitError PackIndex
  bundleVerify : Nat → Except (TraverseError IndexIntegrityError) Statistics
  shouldInterrupt : Nat → Bool

/-- Modelled from the spec: `crate::verify::fan` is not under `src/`.
"Validate `fan[i] <= fan[i+1]` for `i in 0..254`. On the first violation
report `Fan { index: i }`" — returns the first invalid index. -/
def fanCheck (fan : List Nat) : Option Nat :=
  (List.range 255).find? fun i => fan.getD (i + 1) 0 < fan.getD i 0

/-- The oid-order scan of verify.rs lines 186-198: the first
`entry_index` in `0..num_objects-1` such that
`oid_at(entry_index+1).cmp(oid_at(entry_index)) != Greater`. -/
def oidOrderViolation (m : File) : Option Nat :=
  (List.range (m.num_objects - 1)).find? fun i =>
    oidCmp (m.oid_at_index (i + 1)) (m.oid_at_index i) != Ordering.gt

/-- The entry plan before sorting: `(pack_id, entry_index)` for every
entry in MIDX order (verify.rs lines 186-203 push one pair per entry,
in increasing `entry_index` order). -/
def unsortedPlan (m : File) : List (Nat × Nat) :=
  (List.range m.num_objects).map fun i =>
    ((m.pack_id_and_pack_offset_at_index i).1, i)

/-- Stable insertion (ascending by `pack_id`, i.e. the first component):
the new element goes in front of the first element not strictly below
it, hence in front of all equal keys that were inserted earlier. -/
def insertPlan (x : Nat × Nat) : List (Nat × Nat) → List (Nat × Nat)
  | [] => [x]
  | y :: ys => if y.1 < x.1 then y :: insertPlan x ys else x :: y :: ys

/-- Stable sort ascending by `pack_id`, modelling
`pack_ids_and_offsets.sort_by(|l, r| l.0.cmp(&r.0))` (verify.rs line
205).  Rust's `sort_by` is a stable sort; a stable sort under a fixed
comparator is a unique function of its input, so stable insertion sort
is observationally the same function. -/
def sortPlan : List (Nat × Nat) → List (Nat × Nat)
  | [] => []
  | x :: xs => insertPlan x (sortPlan xs)

/-- The Entry Plan as consumed by the per-pack loop. -/
def entryPlan (m : File) : List (Nat × Nat) :=
  sortPlan (unsortedPlan m)

/-- The per-entry body of verify.rs lines 250-267: look every entry of
the current pack up in that pack's index, compare pack offsets.  Returns
the first error, or `none` when all entries pass. -/
def checkEntries (m : File) (index : PackIndex) : List Nat → Option IntegrityError
  | [] => none
  | entry_id :: rest =>
    let oid := m.oid_at_index entry_id
    let expected_pack_offset := (m.pack_id_and_pack_offset_at_index entry_id).2
    match index.lookup oid with
    | none => some (.oidNotFound oid)
    | some entry_in_bundle_index =>
      let actual_pack_offset := index.pack_offset_at_index entry_in_bundle_index
      if actual_pack_offset ≠ expected_pack_offset then
        some (.packOffsetMismatch oid expected_pack_offset actual_pack_offset)
      else
        checkEntries m index rest

/-- The error mapping of verify.rs lines 291-324: a processor-level
bundle error is re-wrapped as `IndexIntegrity`, every other traverse
variant passes through unchanged. -/
def mapBundleErr : TraverseError IndexIntegrityError → TraverseError IntegrityError
  | .processor e => .processor (.indexIntegrity e)
  | .verifyChecksum e => .verifyChecksum e
  | .tree t => .tree t
  | .treeTraversal t => .treeTraversal t
  | .packDecode id offset source => .packDecode id offset source
  | .packMismatch expected actual => .packMismatch expected actual
  | .packObjectMismatch expected actual offset kind =>
      .packObjectMismatch expected actual offset kind
  | .crc32Mismatch expected actual offset kind =>
      .crc32Mismatch expected actual offset kind
  | .interrupted => .interrupted

/-- The per-pack loop of verify.rs lines 223-327, walking the pack ids in
`index_names()` order while consuming the sorted Entry Plan slice.
`pack_ids_slice.partition_point(|e| e.0 == pack_id)` on a slice that is
partitioned for that predicate (guaranteed here because the plan is
sorted ascending by `pack_id` and lower ids were consumed by earlier
iterations) splits off exactly the longest prefix of entries whose
`pack_id` equals the current id, i.e. `takeWhile`/`dropWhile`.
Accumulates `total_objects_checked` and, on the deep path, the per-pack
statistics. -/
def packLoop (cfg : Config) (deep_check : Bool) :
    List Nat → List (Nat × Nat) → Nat → List Statistics →
    Except (TraverseError IntegrityError) (Nat × List Statistics)
  | [], _, total, stats => .ok (total, stats)
  | pack_id :: rest, slice, total, stats =>
    match cfg.openIndex pack_id with
    | .error e => .error (.processor (.bundleInit e))
    | .ok index =>
      let to_check := slice.takeWhile fun e => e.1 == pack_id
      let slice' := slice.dropWhile fun e => e.1 == pack_id
      match checkEntries cfg.midx index (to_check.map (·.2)) with
      | some e => .error (.processor e)
      | none =>
        if cfg.shouldInterrupt pack_id then
          .error (.processor .interrupted)
        else
          let total' := total + to_check.length
          if deep_check then
            match cfg.bundleVerify pack_id with
            | .error e => .error (mapBundleErr e)
            | .ok st => packLoop cfg deep_check rest slice' total' (stats ++ [st])
          else
            packLoop cfg deep_check rest slice' total' stats

/-- `File::verify_integrity_inner` (verify.rs lines 136-342): checksum
phase, fan-table phase, emptiness phase, oid-order phase (which also
collects the Entry Plan), Entry Plan sort, per-pack phase, and the final
completeness `assert_eq!` (line 329), which is a panic, not an error. -/
def verifyIntegrityInner (cfg : Config) (deep_check : Bool) :
    RunResult (TraverseError IntegrityError) Outcome :=
  match cfg.checksumResult with
  | .error e => .err (.processor (.multiIndexChecksum e))
  | .ok actual_index_checksum =>
    match fanCheck cfg.midx.fan with
    | some first_invalid => .err (.processor (.fan first_invalid))
    | none =>
      if cfg.midx.num_objects = 0 then .err (.processor .empty)
      else
        match oidOrderViolation cfg.midx with
        | some entry_index => .err (.processor (.outOfOrder entry_index))
        | none =>
          match packLoop cfg deep_check (List.range cfg.midx.num_indices)
              (entryPlan cfg.midx) 0 [] with
          | .error e => .err e
          | .ok (total_objects_checked, pack_traverse_statistics) =>
            if cfg.midx.num_objects = total_objects_checked then
              .ok ⟨actual_index_checksum, pack_traverse_statistics⟩
            else
              .panic "BUG: our slicing should allow to visit all objects"

/-- `File::verify_integrity_fast` (verify.rs lines 103-117): the inner
verifier with `deep_check = false`, unwrapping the `Processor` variant
and hitting `unreachable!` on any other error variant. -/
def verifyIntegrityFast (cfg : Config) : RunResult IntegrityError Oid :=
  match verifyIntegrityInner cfg false with
  | .panic msg => .panic msg
  | .err (.processor e) => .err e
  | .err _ => .panic "BUG: no other error type is possible"
  | .ok o => .ok o.actual_index_checksum

/-- `File::verify_integrity` (verify.rs lines 122-134): the inner
verifier with `deep_check = true`. -/
def verifyIntegrity (cfg : Config) :
    RunResult (TraverseError IntegrityError) Outcome :=
  verifyIntegrityInner cfg true

/-- Swap the two MIDX entries at positions `k` and `k+1`
(the mutation described by the spec's "Swapped oids" scenario). -/
def swapEntries (m : File) (k : Nat) : File :=
  { m with
    oid_at_index := fun i =>
      if i = k then m.oid_at_index (k + 1)
      else if i = k + 1 then m.oid_at_index k
      else m.oid_at_index i,
    pack_id_and_pack_offset_at_index := fun i =>
      if i = k then m.pack_id_and_pack_offset_at_index (k + 1)
      else if i = k + 1 then m.pack_id_and_pack_offset_at_index k
      else m.pack_id_and_pack_offset_at_index i }

/-- Observer: is the run result the typed error
`UnexpectedObjectCount`?  (Used to state that the verifier never
produces it.) -/
def isUnexpectedObjectCount {O : Type} :
    RunResult (TraverseError IntegrityError) O → Bool
  | .err (.processor (.unexpectedObjectCount _ _)) => true
  | _ => false

/-- Observer: if the run result is an error at all, is it the
`Processor` variant?  (`true` for panics and successes.) -/
def errIsProcessor {E O : Type} : RunResult (TraverseError E) O → Bool
  | .err (.processor _) => true
  | .err _ => false
  | _ => true

/-- `isUnexpectedObjectCount` at the level of the per-pack loop's
`Except` result. -/
def exceptIsUnexpected {O : Type} :
    Except (TraverseError IntegrityError) O → Bool
  | .error (.processor (.unexpectedObjectCount _ _)) => true
  | _ => false

/-- `errIsProcessor` at the level of the per-pack loop's `Except`
result. -/
def exceptErrIsProcessor {E O : Type} : Except (TraverseError E) O → Bool
  | .error (.processor _) => true
  | .error _ => false
  | .ok _ => true

end Midx

namespace Sideband

/-- `U16_HEX_BYTES`: the packet-line length header is four hex bytes. -/
def U16_HEX_BYTES : Nat := 4

/-- `PacketLine` as seen by the reader: the special lines and a data
line carrying its payload bytes (the payload excludes the 4-byte length
header). -/
inductive PacketLine
  | flush
  | delim
  | responseEnd
  | data (payload : List Nat)
deriving DecidableEq

/-- `PacketLine::as_slice` (external): the payload of a data line,
`none` for the special lines. -/
def PacketLine.asSlice : PacketLine → Option (List Nat)
  | .data d => some d
  | _ => none

/-- The payload bytes a line contributes to the parent's internal line
buffer (empty for special lines, whose buffer content the reader never
exposes). -/
def PacketLine.bufPayload : PacketLine → List Nat
  | .data d => d
  | _ => []

/-- One outcome of the parent's `read_line()` future
(`ReadLineResult` = `Option<io::Result<Result<PacketLine, decode::Error>>>`),
together with, for actual lines, the 4-byte length header that sits in
front of the payload in the parent's internal line buffer.  A stream is
the list of outcomes the parent will deliver; the empty list stands for
`None` (terminator reached / stream exhausted). -/
inductive Item
  | ioErr (kind : Nat)
  | decodeErr
  | line (hdr : List Nat) (pl : PacketLine)
deriving DecidableEq

/-- The kind of an `io::Error` surfaced by the reader. -/
inductive IoKind
  | unexpectedEof
  | otherErr
  | underlying (kind : Nat)
deriving DecidableEq

/-- A sideband band (`immutable::Band`). -/
inductive Band
  | data (d : List Nat)
  | progress (d : List Nat)
  | bandError (d : List Nat)
deriving DecidableEq

/-- Modelled from the spec: `PacketLine::decode_band` is not under
`src/`.  "first byte = 1 → data band; 2 → progress band; 3 → error
band; any other value → decode error"; a non-data line has no band. -/
def decodeBand : PacketLine → Except Unit Band
  | .data (1 :: d) => .ok (.data d)
  | .data (2 :: d) => .ok (.progress d)
  | .data (3 :: d) => .ok (.bandError d)
  | _ => .error ()

/-- Modelled from the spec: `Text::from` is not under `src/`; it yields
the "textual payload (control-character-stripped per the underlying
decoder)" — trailing control bytes are removed. -/
def textFrom (d : List Nat) : List Nat :=
  (d.reverse.dropWhile fun b => b < 32).reverse

/-- What one `poll_fill_buf` call (entered with an exhausted window)
produces: an `io::Error` of some kind, or a window `(pos, cap)` into
the parent's line buffer `buf`; `pos = cap` is the end-of-file window. -/
inductive FillOutcome
  | ioError (k : IoKind)
  | window (buf : List Nat) (pos cap : Nat)
deriving DecidableEq

/-- Rust's `&buf[pos..cap]`. -/
def sliceOf (buf : List Nat) (pos cap : Nat) : List Nat :=
  (buf.take cap).drop pos

/-- The loop inside `WithSidebands::poll_fill_buf` (async_io.rs lines
172-239), entered with `pos >= cap`.  Each iteration awaits one line
from the parent (the head of `stream`):

* `None` (empty stream) breaks with `(0, 0)` — the EOF window;
* an `Err` from the underlying reader propagates; a decode error is
  wrapped as an `Other` io error;
* with a progress handler: `decode_band` classifies the line; a data
  band breaks with `(U16_HEX_BYTES + 1, payload_len)`, progress/error
  bands invoke the handler and loop;
* without a handler: a data line breaks with
  `(U16_HEX_BYTES, line_len)`, a non-data line is rejected as
  `UnexpectedEof`.

The code then sets `cap := len + ofs`, `pos := ofs` and returns
`parent.buf[pos..cap]`; the returned `FillOutcome.window` carries the
parent's line buffer and that `(pos, cap)` pair.  `events` accumulates
the `(is_error, text)` handler invocations. -/
def fillBufLoop (hasHandler : Bool) (events : List (Bool × List Nat)) :
    List Item → List Item × List (Bool × List Nat) × FillOutcome
  | [] => ([], events, .window [] 0 0)
  | .ioErr k :: rest => (rest, events, .ioError (.underlying k))
  | .decodeErr :: rest => (rest, events, .ioError .otherErr)
  | .line hdr pl :: rest =>
    if hasHandler then
      match decodeBand pl with
      | .error _ => (rest, events, .ioError .otherErr)
      | .ok (.data d) =>
        (rest, events,
          .window (hdr ++ pl.bufPayload) (U16_HEX_BYTES + 1) (U16_HEX_BYTES + 1 + d.length))
      | .ok (.progress d) => fillBufLoop hasHandler (events ++ [(false, textFrom d)]) rest
      | .ok (.bandError d) => fillBufLoop hasHandler (events ++ [(true, textFrom d)]) rest
    else
      match pl.asSlice with
      | some d =>
        (rest, events, .window (hdr ++ pl.bufPayload) U16_HEX_BYTES (U16_HEX_BYTES + d.length))
      | none => (rest, events, .ioError .unexpectedEof)

/-- A caller that drains the reader through the buffered surface:
`fill_buf`, then `consume` everything in the window, until `fill_buf`
returns an empty slice (end-of-file per the `BufRead`/`AsyncBufRead`
contract) or an error (`none`).  This is also what `poll_read` with a
large destination buffer does (async_io.rs lines 262-270).  `fuel`
bounds the number of `fill_buf` calls; any `fuel > stream.length`
suffices because every returned window consumes at least one item. -/
def readAllGo (hasHandler : Bool) :
    Nat → List (Bool × List Nat) → List Item →
    Option (List Nat × List (Bool × List Nat))
  | 0, _, _ => none
  | fuel + 1, events, stream =>
    match fillBufLoop hasHandler events stream with
    | (_, _, .ioError _) => none
    | (rest, events', .window buf pos cap) =>
      let s := sliceOf buf pos cap
      if s.isEmpty then some ([], events')
      else
        match readAllGo hasHandler fuel events' rest with
        | none => none
        | some (tail, events'') => some (s ++ tail, events'')

/-- All bytes the caller obtains from the stream (up to EOF), paired
with the handler invocations. -/
def readAll (hasHandler : Bool) (stream : List Item) :
    Option (List Nat × List (Bool × List Nat)) :=
  readAllGo hasHandler (stream.length + 1) [] stream

/-- Well-formed sideband item: every line is a data line whose first
byte is a band id in `{1, 2, 3}` and whose buffered form is preceded by
the 4-byte length header. -/
def validSideband : Item → Bool
  | .line hdr (.data (b :: _)) => (hdr.length == U16_HEX_BYTES) && (b == 1 || b == 2 || b == 3)
  | _ => false

/-- Does the item carry a band-1 (data) line with a nonempty payload
whenever it is a band-1 line at all? -/
def band1Nonempty : Item → Bool
  | .line _ (.data (1 :: d)) => !d.isEmpty
  | _ => true

/-- The specification's view (§8): "the concatenation, in order, of all
band-1 payloads (prefix-byte stripped)". -/
def band1ConcatSpec (stream : List Item) : List Nat :=
  (stream.map fun it =>
    match it with
    | .line _ (.data (1 :: d)) => d
    | _ => []).flatten

/-- The parent iterator (`StreamingPeekableIter`), restricted to the
state the reader touches: the pending outcomes, the configured stop
lines, the stop-line bookkeeping (`stopped_at`, `is_done`) and the
internal line buffer. -/
structure Parent where
  stream : List Item
  delimiters : List PacketLine
  stopped_at : Option PacketLine
  is_done : Bool
  buf : List Nat
deriving DecidableEq

/-- Modelled from the spec: `StreamingPeekableIter::reset` is not under
`src/`; it "resets the parent iterator's internal stop-line state to a
clean baseline so subsequent reuse does not observe stale terminators",
leaving the rest of the parent untouched. -/
def Parent.reset (p : Parent) : Parent :=
  { p with stopped_at := none, is_done := false }

/-- The reader's state (async_io.rs lines 54-62): `Idle` owns the
parent; `ReadLine` has lent it to the pending read (represented by the
parent value the pending computation owns). -/
inductive RState
  | idle (parent : Parent)
  | readLine (pending : Parent)
deriving DecidableEq

/-- `impl Drop for WithSidebands` (async_io.rs lines 28-37): in `Idle`
the parent is `reset()`; in `ReadLine` nothing happens.  Drop is a
total function — it never fails. -/
def dropReader : RState → RState
  | .idle parent => .idle parent.reset
  | .readLine pending => .readLine pending

/-- Modelled from the spec: `StreamingPeekableIter::peek_line` is not
under `src/`; it returns the next outcome without consuming it, or
`None` once the stream is exhausted or the next line is a configured
stop line. -/
def Parent.peekLine (p : Parent) :
    Option (Except Nat (Except Unit PacketLine)) :=
  match p.stream with
  | [] => none
  | .ioErr k :: _ => some (.error k)
  | .decodeErr :: _ => some (.ok (.error ()))
  | .line _ pl :: _ =>
    if pl ∈ p.delimiters then none else some (.ok (.ok pl))

/-- `WithSidebands::peek_data_line` (async_io.rs lines 114-124): only
in `Idle`, and only a `Data` line is surfaced; every other peek outcome
collapses to `None`. -/
def peekDataLine : RState → Option (Except Nat (Except Unit (List Nat)))
  | .idle parent =>
    match parent.peekLine with
    | some (.ok (.ok (.data line))) => some (.ok (.ok line))
    | some (.ok (.error err)) => some (.ok (.error err))
    | some (.error err) => some (.error err)
    | _ => none
  | .readLine _ => none

/-- `WithSidebands::stopped_at` (async_io.rs lines 100-105). -/
def stoppedAt : RState → Option PacketLine
  | .idle parent => parent.stopped_at
  | _ => none

/-- The specification's view of the handler invocations: one
`(is_error, text)` event per band-2/band-3 line, in stream order. -/
def bandEventsSpec (stream : List Item) : List (Bool × List Nat) :=
  stream.filterMap fun it =>
    match it with
    | .line _ (.data (2 :: d)) => some (false, textFrom d)
    | .line _ (.data (3 :: d)) => some (true, textFrom d)
    | _ => none

end Sideband

namespace Midx

/-- Modelled from the spec's sentence for claim C1 ("After each entry,
poll `should_interrupt`; if set, fail `Interrupted`"): the per-entry
check loop as the claim describes it, polling a (load-indexed)
cancellation flag after every entry.  This definition follows the
claim's words, not the source, and exists only to be contrasted with
`checkEntries`/`packLoop`. -/
def checkEntriesSpecPoll (m : File) (index : PackIndex) (flag : Nat → Bool) :
    Nat → List Nat → Option IntegrityError
  | _, [] => none
  | n, entry_id :: rest =>
    let oid := m.oid_at_index entry_id
    let expected_pack_offset := (m.pack_id_and_pack_offset_at_index entry_id).2
    match index.lookup oid with
    | none => some (.oidNotFound oid)
    | some entry_in_bundle_index =>
      let actual_pack_offset := index.pack_offset_at_index entry_in_bundle_index
      if actual_pack_offset ≠ expected_pack_offset then
        some (.packOffsetMismatch oid expected_pack_offset actual_pack_offset)
      else if flag n then some .interrupted
      else checkEntriesSpecPoll m index flag (n + 1) rest

/-- A concrete per-pack index: oid `[0]` at entry 0 (pack offset 10),
oid `[1]` at entry 1 (pack offset 999). -/
def exPackIndex : PackIndex :=
  { lookup := fun oid =>
      if oid = [0] then some 0 else if oid = [1] then some 1 else none
    pack_offset_at_index := fun j => if j = 0 then 10 else 999 }

/-- Concrete input for claim C1: one pack, two well-ordered entries; the
MIDX records pack offsets 10 and 20, the pack's own index records 10 and
999 (so entry 1 disagrees); the cancellation flag is set from the
start. -/
def cfgC1 : Config :=
  { midx :=
      { num_objects := 2
        num_indices := 1
        oid_at_index := fun i => if i = 0 then [0] else [1]
        pack_id_and_pack_offset_at_index := fun i => if i = 0 then (0, 10) else (0, 20)
        fan := [] }
    checksumResult := .ok [9]
    openIndex := fun _ => .ok exPackIndex
    bundleVerify := fun _ => .ok ⟨0⟩
    shouldInterrupt := fun _ => true }

/-- Concrete input for claim C2: a MIDX declaring one object whose entry
points at pack id 7, while only one index (pack id 0) exists; the entry
is therefore never examined and the final count check fires. -/
def cfgC2 : Config :=
  { midx :=
      { num_objects := 1
        num_indices := 1
        oid_at_index := fun _ => [0]
        pack_id_and_pack_offset_at_index := fun _ => (7, 10)
        fan := [] }
    checksumResult := .ok [9]
    openIndex := fun _ => .ok exPackIndex
    bundleVerify := fun _ => .ok ⟨0⟩
    shouldInterrupt := fun _ => false }

/-- Concrete input for claim C4: three strictly ascending oids in one
pack, offsets agreeing with `exPackIndex` where relevant. -/
def cfgC4 : Config :=
  { midx :=
      { num_objects := 3
        num_indices := 1
        oid_at_index := fun i => [i]
        pack_id_and_pack_offset_at_index := fun i => (0, 10 + i)
        fan := [] }
    checksumResult := .ok [9]
    openIndex := fun _ => .ok exPackIndex
    bundleVerify := fun _ => .ok ⟨0⟩
    shouldInterrupt := fun _ => false }

/-- Concrete input for claims C5/C9: a fully consistent one-pack MIDX
whose single entry agrees with its index; the bundle verifier reports
statistics tagged `5`. -/
def cfgC5 : Config :=
  { midx :=
      { num_objects := 1
        num_indices := 1
        oid_at_index := fun _ => [0]
        pack_id_and_pack_offset_at_index := fun _ => (0, 10)
        fan := [] }
    checksumResult := .ok [9]
    openIndex := fun _ => .ok exPackIndex
    bundleVerify := fun _ => .ok ⟨5⟩
    shouldInterrupt := fun _ => false }

end Midx

namespace Sideband

/-- A 4-byte length header (`"0006"` as bytes); the concrete value is
irrelevant, only its length matters. -/
def sbHdr : List Nat := [48, 48, 48, 54]

/-- Concrete stream for claim C3's counterexample: a band-1 line
carrying byte 65, a band-1 line with an *empty* payload, then a band-1
line carrying byte 66. -/
def sbStreamEmptyMid : List Item :=
  [ .line sbHdr (.data [1, 65])
  , .line sbHdr (.data [1])
  , .line sbHdr (.data [1, 66]) ]

/-- Concrete stream for claim C3's amended statement: progress, data 65,
error, data 66 — all band-1 payloads nonempty. -/
def sbStreamGood : List Item :=
  [ .line sbHdr (.data [2, 72])
  , .line sbHdr (.data [1, 65])
  , .line sbHdr (.data [3, 69])
  , .line sbHdr (.data [1, 66]) ]

end Sideband

/-! ## Helper lemmas -/

namespace Sideband

/-- A window entirely inside the suffix of an appended buffer slices the
suffix alone. -/
theorem sliceOf_append (a b : List Nat) (x y : Nat) :
    sliceOf (a ++ b) (a.length + x) (a.length + y) = sliceOf b x y := by
  simp [sliceOf, List.take_append, List.drop_append,
    List.drop_append_eq_append_drop, List.take_length]

/-- Slicing the whole suffix after a prefix of length `n` recovers it. -/
theorem sliceOf_append_full (a b : List Nat) :
    sliceOf (a ++ b) a.length (a.length + b.length) = b := by
  have h := sliceOf_append a b 0 b.length
  simpa [sliceOf] using h

/-- The data-band window `[U16_HEX_BYTES + 1, U16_HEX_BYTES + 1 + len)`
over `header ++ band-byte :: payload` slices to exactly the payload. -/
theorem sliceOf_band (hdr d : List Nat) (b : Nat)
    (hhdr : hdr.length = U16_HEX_BYTES) :
    sliceOf (hdr ++ b :: d) (U16_HEX_BYTES + 1) (U16_HEX_BYTES + 1 + d.length) = d := by
  have h := sliceOf_append_full (hdr ++ [b]) d
  have hl : (hdr ++ [b]).length = U16_HEX_BYTES + 1 := by
    simp [hhdr]
  rw [hl] at h
  simpa using h

/-- Draining a well-formed sideband stream (every line a data line with
a band byte in `{1,2,3}`) whose band-1 payloads are all nonempty yields
exactly the in-order band-1 payload concatenation, and the handler sees
exactly the band-2/3 events in order. -/
theorem readAllGo_spec (stream : List Item) :
    ∀ (fuel : Nat) (events : List (Bool × List Nat)),
      stream.length < fuel →
      stream.all validSideband = true →
      stream.all band1Nonempty = true →
      readAllGo true fuel events stream =
        some (band1ConcatSpec stream, events ++ bandEventsSpec stream) := by
  induction stream with
  | nil =>
    intro fuel events hf _ _
    match fuel with
    | fuel + 1 =>
      simp [readAllGo, fillBufLoop, sliceOf, band1ConcatSpec, bandEventsSpec]
  | cons it rest ih =>
    intro fuel events hf hv hn
    match fuel with
    | fuel + 1 =>
      rw [List.all_cons, Bool.and_eq_true] at hv hn
      obtain ⟨hvit, hvrest⟩ := hv
      obtain ⟨hnit, hnrest⟩ := hn
      have hrest : rest.length < fuel + 1 := by
        simp at hf; omega
      match it with
      | .ioErr k => simp [validSideband] at hvit
      | .decodeErr => simp [validSideband] at hvit
      | .line hdr .flush => simp [validSideband] at hvit
      | .line hdr .delim => simp [validSideband] at hvit
      | .line hdr .responseEnd => simp [validSideband] at hvit
      | .line hdr (.data []) => simp [validSideband] at hvit
      | .line hdr (.data (b :: d)) =>
        have hb : hdr.length = U16_HEX_BYTES ∧ (b = 1 ∨ b = 2 ∨ b = 3) := by
          simpa [validSideband, or_assoc] using hvit
        rcases hb with ⟨hhdr, hb⟩
        rcases hb with rfl | rfl | rfl
        · -- band 1: a data window is produced and the payload is emitted
          have hd : d ≠ [] := by
            simpa [band1Nonempty] using hnit
          simp only [readAllGo, fillBufLoop, decodeBand, if_true,
            PacketLine.bufPayload]
          rw [sliceOf_band hdr d 1 hhdr]
          simp only [List.isEmpty_eq_true]
          rw [if_neg hd]
          have hrec' := ih fuel events (by simpa using hf) hvrest hnrest
          rw [hrec']
          simp [band1ConcatSpec, bandEventsSpec]
        · -- band 2: the handler is invoked and the loop continues
          have hstep :
              readAllGo true (fuel + 1) events
                  (.line hdr (.data (2 :: d)) :: rest) =
                readAllGo true (fuel + 1)
                  (events ++ [(false, textFrom d)]) rest := rfl
          rw [hstep, ih (fuel + 1) (events ++ [(false, textFrom d)]) hrest hvrest hnrest]
          simp [band1ConcatSpec, bandEventsSpec]
        · -- band 3: the handler is invoked with `is_error` and the loop continues
          have hstep :
              readAllGo true (fuel + 1) events
                  (.line hdr (.data (3 :: d)) :: rest) =
                readAllGo true (fuel + 1)
                  (events ++ [(true, textFrom d)]) rest := rfl
          rw [hstep, ih (fuel + 1) (events ++ [(true, textFrom d)]) hrest hvrest hnrest]
          simp [band1ConcatSpec, bandEventsSpec]

end Sideband

namespace Midx

/-- `checkEntries` only ever reports a missing oid or an offset
mismatch. -/
theorem checkEntries_cases (m : File) (index : PackIndex) :
    ∀ (l : List Nat) (e : IntegrityError),
      checkEntries m index l = some e →
      (∃ id, e = .oidNotFound id) ∨
      (∃ id x y, e = .packOffsetMismatch id x y) := by
  intro l
  induction l with
  | nil => intro e h; simp [checkEntries] at h
  | cons a rest ih =>
    intro e h
    simp only [checkEntries] at h
    split at h
    · exact Or.inl ⟨_, by injection h with h; exact h.symm⟩
    · split at h
      · exact Or.inr ⟨_, _, _, by injection h with h; exact h.symm⟩
      · exact ih e h

/-- The error mapping applied to a bundle error never produces the
`UnexpectedObjectCount` processor error. -/
theorem mapBundleErr_not_unexpected {O : Type} (e : TraverseError IndexIntegrityError) :
    exceptIsUnexpected (O := O) (.error (mapBundleErr e)) = false := by
  cases e <;> simp [mapBundleErr, exceptIsUnexpected]

/-- The per-pack loop never produces the `UnexpectedObjectCount`
processor error. -/
theorem packLoop_not_unexpected (cfg : Config) (deep : Bool) :
    ∀ (pids : List Nat) (slice : List (Nat × Nat)) (total : Nat)
      (stats : List Statistics),
      exceptIsUnexpected (packLoop cfg deep pids slice total stats) = false := by
  intro pids
  induction pids with
  | nil => intro slice total stats; simp [packLoop, exceptIsUnexpected]
  | cons pid rest ih =>
    intro slice total stats
    simp only [packLoop]
    split
    · simp [exceptIsUnexpected]
    · split
      · rename_i e h
        rcases checkEntries_cases _ _ _ _ h with ⟨id, rfl⟩ | ⟨id, x, y, rfl⟩ <;>
          simp [exceptIsUnexpected]
      · split
        · simp [exceptIsUnexpected]
        · split
          · split
            · rename_i e _
              exact mapBundleErr_not_unexpected e
            · exact ih _ _ _
          · exact ih _ _ _

/-- With `deep_check = false` the per-pack loop can only fail with the
`Processor` variant. -/
theorem packLoop_fast_processor (cfg : Config) :
    ∀ (pids : List Nat) (slice : List (Nat × Nat)) (total : Nat)
      (stats : List Statistics),
      exceptErrIsProcessor (packLoop cfg false pids slice total stats) = true := by
  intro pids
  induction pids with
  | nil => intro slice total stats; simp [packLoop, exceptErrIsProcessor]
  | cons pid rest ih =>
    intro slice total stats
    simp only [packLoop]
    split
    · simp [exceptErrIsProcessor]
    · split
      · simp [exceptErrIsProcessor]
      · split
        · simp [exceptErrIsProcessor]
        · simpa using ih _ _ _

/-- `insertPlan` is insertion up to permutation. -/
theorem insertPlan_perm (x : Nat × Nat) :
    ∀ l : List (Nat × Nat), (insertPlan x l).Perm (x :: l) := by
  intro l
  induction l with
  | nil => exact List.Perm.refl _
  | cons y ys ih =>
    by_cases hc : y.1 < x.1
    · simp only [insertPlan, if_pos hc]
      exact (ih.cons y).trans (List.Perm.swap x y ys)
    · simp only [insertPlan, if_neg hc]
      exact List.Perm.refl _

/-- Membership in an insertion. -/
theorem mem_insertPlan (x z : Nat × Nat) (l : List (Nat × Nat)) :
    z ∈ insertPlan x l ↔ z = x ∨ z ∈ l := by
  rw [(insertPlan_perm x l).mem_iff, List.mem_cons]

/-- `sortPlan` permutes its input. -/
theorem sortPlan_perm : ∀ l : List (Nat × Nat), (sortPlan l).Perm l := by
  intro l
  induction l with
  | nil => exact List.Perm.refl _
  | cons x xs ih => exact (insertPlan_perm x (sortPlan xs)).trans (ih.cons x)

/-- Inserting an element that came *before* every list element in the
original order (strictly smaller second component) preserves the
combined invariant: ascending first components, and strictly ascending
second components among equal first components. -/
theorem insertPlan_pairwise (x : Nat × Nat) :
    ∀ l : List (Nat × Nat),
      l.Pairwise (fun a b => a.1 < b.1 ∨ (a.1 = b.1 ∧ a.2 < b.2)) →
      (∀ y ∈ l, x.2 < y.2) →
      (insertPlan x l).Pairwise
        (fun a b => a.1 < b.1 ∨ (a.1 = b.1 ∧ a.2 < b.2)) := by
  intro l
  induction l with
  | nil => intro _ _; simp [insertPlan]
  | cons y ys ih =>
    intro hl hx
    rw [List.pairwise_cons] at hl
    obtain ⟨hy, hys⟩ := hl
    by_cases hc : y.1 < x.1
    · simp only [insertPlan, if_pos hc]
      rw [List.pairwise_cons]
      constructor
      · intro z hz
        rcases (mem_insertPlan x z ys).mp hz with rfl | hz
        · exact Or.inl hc
        · exact hy z hz
      · exact ih hys fun z hz => hx z (List.mem_cons_of_mem y hz)
    · simp only [insertPlan, if_neg hc]
      rw [List.pairwise_cons]
      constructor
      · intro z hz
        have hxy : x.1 ≤ y.1 := Nat.le_of_not_lt hc
        rcases List.mem_cons.mp hz with rfl | hz
        · rcases Nat.lt_or_ge x.1 z.1 with h1 | h1
          · exact Or.inl h1
          · exact Or.inr ⟨by omega, hx z (List.mem_cons_self z ys)⟩
        · have hyz : y.1 ≤ z.1 := by
            rcases hy z hz with h | ⟨h, -⟩
            · exact Nat.le_of_lt h
            · exact Nat.le_of_eq h
          rcases Nat.lt_or_ge x.1 z.1 with h1 | h1
          · exact Or.inl h1
          · exact Or.inr ⟨by omega, hx z (List.mem_cons_of_mem y hz)⟩
      · rw [List.pairwise_cons]
        exact ⟨hy, hys⟩

/-- Sorting an input whose second components strictly ascend yields a
list that ascends by first component and, among equal first components,
still strictly ascends by second component (stability). -/
theorem sortPlan_pairwise :
    ∀ l : List (Nat × Nat),
      l.Pairwise (fun a b => a.2 < b.2) →
      (sortPlan l).Pairwise
        (fun a b => a.1 < b.1 ∨ (a.1 = b.1 ∧ a.2 < b.2)) := by
  intro l
  induction l with
  | nil => intro _; simp [sortPlan]
  | cons x xs ih =>
    intro h
    rw [List.pairwise_cons] at h
    obtain ⟨hx, hxs⟩ := h
    exact insertPlan_pairwise x (sortPlan xs) (ih hxs)
      fun y hy => hx y ((sortPlan_perm xs).mem_iff.mp hy)

/-- The unsorted Entry Plan lists entry indices in strictly ascending
order. -/
theorem unsortedPlan_pairwise (m : File) :
    (unsortedPlan m).Pairwise (fun a b => a.2 < b.2) := by
  rw [unsortedPlan, List.pairwise_map]
  exact List.pairwise_lt_range m.num_objects

/-- Reversing the operands of `oidCmp` swaps the ordering. -/
theorem oidCmp_swap (a : Oid) : ∀ b : Oid, oidCmp b a = (oidCmp a b).swap := by
  induction a with
  | nil => intro b; cases b <;> rfl
  | cons x as ih =>
    intro b
    cases b with
    | nil => rfl
    | cons y bs =>
      simp only [oidCmp]
      rw [← Nat.compare_swap x y]
      cases compare x y <;> simp [Ordering.swap, ih bs]

/-- `oidCmp`'s strict descent is transitive. -/
theorem oidCmp_gt_trans (a : Oid) :
    ∀ b c : Oid, oidCmp a b = .gt → oidCmp b c = .gt → oidCmp a c = .gt := by
  induction a with
  | nil =>
    intro b c h1 _
    cases b <;> simp [oidCmp] at h1
  | cons x as ih =>
    intro b c h1 h2
    cases b with
    | nil => cases c <;> simp [oidCmp] at h2
    | cons y bs =>
      cases c with
      | nil => rfl
      | cons z cs =>
        simp only [oidCmp] at h1 h2 ⊢
        rcases hxy : compare x y with _ | _ | _ <;> rw [hxy] at h1 <;>
          rcases hyz : compare y z with _ | _ | _ <;> rw [hyz] at h2 <;>
            simp_all
        · -- x = y, y = z: recurse on the tails
          rw [Nat.compare_eq_eq] at hxy hyz
          subst hxy; subst hyz
          rw [Nat.compare_eq_eq.mpr rfl]
          exact ih bs cs h1 h2
        · -- x = y, z < y
          rw [Nat.compare_eq_eq] at hxy
          rw [Nat.compare_eq_gt] at hyz
          subst hxy
          rw [Nat.compare_eq_gt.mpr hyz]
        · -- y < x, y = z
          rw [Nat.compare_eq_gt] at hxy
          rw [Nat.compare_eq_eq] at hyz
          subst hyz
          rw [Nat.compare_eq_gt.mpr hxy]
        · -- y < x, z < y
          rw [Nat.compare_eq_gt] at hxy hyz
          rw [Nat.compare_eq_gt.mpr (hyz.trans hxy)]

/-- `find?` over `range' s n` returns the first index satisfying the
predicate. -/
theorem find?_range'_first {p : Nat → Bool} :
    ∀ (n s i : Nat), s ≤ i → i < s + n → p i = true →
      (∀ j, s ≤ j → j < i → p j = false) →
      (List.range' s n).find? p = some i := by
  intro n
  induction n with
  | zero => intro s i h1 h2 _ _; omega
  | succ n ih =>
    intro s i h1 h2 hp hmin
    show (s :: List.range' (s + 1) n).find? p = some i
    rcases Nat.eq_or_lt_of_le h1 with rfl | hlt
    · exact List.find?_cons_of_pos _ hp
    · rw [List.find?_cons_of_neg _ (by simp [hmin s le_rfl hlt])]
      exact ih (s + 1) i hlt (by omega) hp fun j hj1 hj2 => hmin j (by omega) hj2

/-- `find?` over `range n` returns the first index satisfying the
predicate. -/
theorem find?_range_first {p : Nat → Bool} (n i : Nat) (hi : i < n)
    (hp : p i = true) (hmin : ∀ j, j < i → p j = false) :
    (List.range n).find? p = some i := by
  rw [List.range_eq_range']
  exact find?_range'_first n 0 i (Nat.zero_le _) (by omega) hp
    fun j _ hj => hmin j hj

/-- The oid-order scan reports exactly the first violating index. -/
theorem oidOrderViolation_eq_some (m : File) (i : Nat)
    (hi : i < m.num_objects - 1)
    (hbad : oidCmp (m.oid_at_index (i + 1)) (m.oid_at_index i) ≠ .gt)
    (hmin : ∀ j, j < i →
      oidCmp (m.oid_at_index (j + 1)) (m.oid_at_index j) = .gt) :
    oidOrderViolation m = some i := by
  apply find?_range_first _ i hi
  · rcases hx : oidCmp (m.oid_at_index (i + 1)) (m.oid_at_index i) with _ | _ | _
    · rfl
    · rfl
    · exact absurd hx hbad
  · intro j hj
    rw [hmin j hj]
    rfl

/-- Once the checksum, fan and emptiness phases pass, a first oid-order
violation at `i` makes the whole run fail `OutOfOrder { index := i }`. -/
theorem verify_outOfOrder (cfg : Config) (deep : Bool) (c : Oid) (i : Nat)
    (hchk : cfg.checksumResult = .ok c)
    (hfan : fanCheck cfg.midx.fan = none)
    (hne : cfg.midx.num_objects ≠ 0)
    (hi : i < cfg.midx.num_objects - 1)
    (hbad : oidCmp (cfg.midx.oid_at_index (i + 1)) (cfg.midx.oid_at_index i) ≠ .gt)
    (hmin : ∀ j, j < i →
      oidCmp (cfg.midx.oid_at_index (j + 1)) (cfg.midx.oid_at_index j) = .gt) :
    verifyIntegrityInner cfg deep = .err (.processor (.outOfOrder i)) := by
  have hv := oidOrderViolation_eq_some cfg.midx i hi hbad hmin
  simp only [verifyIntegrityInner, hchk, hfan, hv, if_neg hne]

/-- A successful deep per-pack loop run appends, for every pack id in
its list and in list order, exactly the statistics record produced by
that pack's bundle verification. -/
theorem packLoop_deep_ok (cfg : Config) :
    ∀ (pids : List Nat) (slice : List (Nat × Nat)) (total : Nat)
      (stats : List Statistics) (t : Nat) (out : List Statistics),
      packLoop cfg true pids slice total stats = .ok (t, out) →
      out.length = stats.length + pids.length
      ∧ (∀ j, j < stats.length → out[j]? = stats[j]?)
      ∧ (∀ i, i < pids.length → ∃ st,
          cfg.bundleVerify (pids.getD i 0) = .ok st
          ∧ out[stats.length + i]? = some st) := by
  intro pids
  induction pids with
  | nil =>
    intro slice total stats t out h
    simp only [packLoop, Except.ok.injEq, Prod.mk.injEq] at h
    obtain ⟨-, rfl⟩ := h
    exact ⟨by simp, fun j _ => rfl, fun i hi => absurd hi (by simp)⟩
  | cons pid rest ih =>
    intro slice total stats t out h
    simp only [packLoop] at h
    split at h
    · simp at h
    · split at h
      · simp at h
      · split at h
        · simp at h
        · split at h
          · split at h
            · simp at h
            · rename_i st hverify
              obtain ⟨hlen, hpre, hrec⟩ := ih _ _ _ _ _ h
              refine ⟨?_, ?_, ?_⟩
              · rw [hlen]
                simp
                omega
              · intro j hj
                rw [hpre j (by simp; omega), List.getElem?_append_left hj]
              · intro i hi
                cases i with
                | zero =>
                  refine ⟨st, hverify, ?_⟩
                  have hp := hpre stats.length (by simp)
                  rw [Nat.add_zero, hp, List.getElem?_concat_length]
                | succ i' =>
                  obtain ⟨st', hv', ho'⟩ := hrec i' (by simp at hi ⊢; omega)
                  refine ⟨st', hv', ?_⟩
                  rw [← ho']
                  congr 1
                  simp
                  omega
          · simp_all

/-- The only panic site of `verify_integrity_inner` is the completeness
`assert_eq!`, so a panicking run always carries its message. -/
theorem inner_panic_msg (cfg : Config) (deep : Bool) (msg : String)
    (h : verifyIntegrityInner cfg deep = .panic msg) :
    msg = "BUG: our slicing should allow to visit all objects" := by
  simp only [verifyIntegrityInner] at h
  split at h <;> try simp_all
  split at h <;> try simp_all
  split at h <;> try simp_all
  split at h <;> try simp_all
  split at h <;> try simp_all
  split at h <;> simp_all

end Midx

/-! ## Claim theorems -/

namespace Midx

/-- **C1, counterexample.**  The cancellation flag of `cfgC1` is set
from the very start, and the pack's second entry carries an offset
mismatch.  Were the flag polled after every individual entry (as the
claim states), the run would fail `Interrupted` right after the first
entry; instead the real per-pack loop checks both entries first and
reports the mismatch found at the second one — the flag is polled only
once per pack, after all of that pack's entries.
`checkEntriesSpecPoll`, written from the claim's words, indeed returns
`Interrupted` on the same input. -/
theorem interrupt_not_polled_per_entry_counterexample :
    cfgC1.shouldInterrupt 0 = true
    ∧ verifyIntegrityInner cfgC1 false =
        .err (.processor (.packOffsetMismatch [1] 20 999))
    ∧ verifyIntegrityInner cfgC1 true =
        .err (.processor (.packOffsetMismatch [1] 20 999))
    ∧ ((verifyIntegrityInner cfgC1 false ==
        .err (.processor .interrupted)) = false)
    ∧ checkEntriesSpecPoll cfgC1.midx exPackIndex cfgC1.shouldInterrupt 0 [0, 1] =
        some .interrupted :=
  ⟨rfl, by decide, by decide, by decide, by decide⟩

/-- **C1, amended.**  During the per-pack phase the verifier polls
`should_interrupt` once per pack — after checking all of that pack's
entries — and returns `Interrupted` as soon as such a poll observes the
flag set: whenever the pack at the head of the loop opens, its entries
all pass, and its (single) flag load reads `true`, the loop fails
`Interrupted` there. -/
theorem interrupt_polled_after_pack_entries
    (cfg : Config) (deep : Bool) (pack_id : Nat) (rest : List Nat)
    (slice : List (Nat × Nat)) (total : Nat) (stats : List Statistics)
    (index : PackIndex)
    (hopen : cfg.openIndex pack_id = .ok index)
    (hentries : checkEntries cfg.midx index
      ((slice.takeWhile fun e => e.1 == pack_id).map (·.2)) = none)
    (hflag : cfg.shouldInterrupt pack_id = true) :
    packLoop cfg deep (pack_id :: rest) slice total stats =
      .error (.processor .interrupted) := by
  simp only [packLoop, hopen, hentries, hflag, if_true]

/-- Witness for `interrupt_polled_after_pack_entries` at `cfgC1` with an
empty Entry Plan slice. -/
theorem interrupt_polled_after_pack_entries_witness :
    packLoop cfgC1 false [0] [] 0 [] = .error (.processor .interrupted) :=
  interrupt_polled_after_pack_entries cfgC1 false 0 [] [] 0 [] exPackIndex
    rfl rfl rfl

/-- **C2, counterexample.**  `cfgC2`'s single entry references pack id 7
while only index 0 exists, so after visiting all packs zero entries were
examined against the declared one; the verifier *panics* on the
completeness `assert_eq!` (verify.rs line 329) instead of returning the
recoverable `UnexpectedObjectCount` error the claim promises. -/
theorem count_mismatch_panics_counterexample :
    verifyIntegrityInner cfgC2 false =
      .panic "BUG: our slicing should allow to visit all objects"
    ∧ verifyIntegrityInner cfgC2 true =
      .panic "BUG: our slicing should allow to visit all objects"
    ∧ cfgC2.midx.num_objects = 1
    ∧ isUnexpectedObjectCount (verifyIntegrityInner cfgC2 false) = false :=
  ⟨by decide, by decide, rfl, by decide⟩

/-- **C2, amended.**  When the count of examined entries differs from
`object_count`, `verify_integrity_inner` fails the internal
`assert_eq!` (a panic — exhibited by the counterexample); the typed
error `UnexpectedObjectCount` is declared but never produced, on any
input, fast or deep. -/
theorem never_unexpected_object_count (cfg : Config) (deep : Bool) :
    isUnexpectedObjectCount (verifyIntegrityInner cfg deep) = false := by
  simp only [verifyIntegrityInner]
  split
  · simp [isUnexpectedObjectCount]
  · split
    · simp [isUnexpectedObjectCount]
    · split
      · simp [isUnexpectedObjectCount]
      · split
        · simp [isUnexpectedObjectCount]
        · split
          · rename_i e h
            have hp := packLoop_not_unexpected cfg deep
              (List.range cfg.midx.num_indices) (entryPlan cfg.midx) 0 []
            rw [h] at hp
            cases e with
            | processor pe =>
              cases pe <;> simp_all [exceptIsUnexpected, isUnexpectedObjectCount]
            | _ => simp [isUnexpectedObjectCount]
          · split <;> simp [isUnexpectedObjectCount]

/-- **C9.**  On the fast path (`deep_check = false`) the inner verifier
only ever fails with the `Processor` traverse variant, so the
`unreachable!` branch in `verify_integrity_fast`'s error mapping is
never taken: `verifyIntegrityFast` never panics with that branch's
message. -/
theorem fast_path_only_processor_errors (cfg : Config) :
    errIsProcessor (verifyIntegrityInner cfg false) = true
    ∧ ((verifyIntegrityFast cfg ==
        RunResult.panic "BUG: no other error type is possible") = false) := by
  have h1 : errIsProcessor (verifyIntegrityInner cfg false) = true := by
    simp only [verifyIntegrityInner]
    split
    · simp [errIsProcessor]
    · split
      · simp [errIsProcessor]
      · split
        · simp [errIsProcessor]
        · split
          · simp [errIsProcessor]
          · split
            · rename_i e h
              have hp := packLoop_fast_processor cfg
                (List.range cfg.midx.num_indices) (entryPlan cfg.midx) 0 []
              rw [h] at hp
              cases e <;> simp_all [exceptErrIsProcessor, errIsProcessor]
            · split <;> simp [errIsProcessor]
  refine ⟨h1, ?_⟩
  cases h : verifyIntegrityInner cfg false with
  | panic msg =>
    have hm := inner_panic_msg cfg false msg h
    subst hm
    simp only [verifyIntegrityFast, h]
    decide
  | err e =>
    rw [h] at h1
    cases e with
    | processor pe =>
      simp only [verifyIntegrityFast, h]
      simp [beq_eq_false_iff_ne]
    | verifyChecksum e => simp [errIsProcessor] at h1
    | tree t => simp [errIsProcessor] at h1
    | treeTraversal t => simp [errIsProcessor] at h1
    | packDecode i o s => simp [errIsProcessor] at h1
    | packMismatch a b => simp [errIsProcessor] at h1
    | packObjectMismatch a b c d => simp [errIsProcessor] at h1
    | crc32Mismatch a b c d => simp [errIsProcessor] at h1
    | interrupted => simp [errIsProcessor] at h1
  | ok o =>
    simp only [verifyIntegrityFast, h]
    simp [beq_eq_false_iff_ne]

/-- **C4.**  Once the checksum, fan-table and non-emptiness checks pass:
for the first `i` with `oid_at(i+1) ≤ oid_at(i)` the run fails
`OutOfOrder { index := i }`; consequently, swapping entries `k` and
`k+1` of a strictly ascending MIDX makes the run fail
`OutOfOrder { index := k }`. -/
theorem out_of_order_first_violation (cfg : Config) (deep : Bool)
    (c : Oid) (k : Nat)
    (hchk : cfg.checksumResult = .ok c)
    (hfan : fanCheck cfg.midx.fan = none)
    (hne : cfg.midx.num_objects ≠ 0) :
    (∀ i, i < cfg.midx.num_objects - 1 →
      oidCmp (cfg.midx.oid_at_index (i + 1)) (cfg.midx.oid_at_index i) ≠ .gt →
      (∀ j, j < i →
        oidCmp (cfg.midx.oid_at_index (j + 1)) (cfg.midx.oid_at_index j) = .gt) →
      verifyIntegrityInner cfg deep = .err (.processor (.outOfOrder i)))
    ∧ (k + 1 < cfg.midx.num_objects →
      (∀ j, j < cfg.midx.num_objects - 1 →
        oidCmp (cfg.midx.oid_at_index (j + 1)) (cfg.midx.oid_at_index j) = .gt) →
      verifyIntegrityInner { cfg with midx := swapEntries cfg.midx k } deep =
        .err (.processor (.outOfOrder k))) := by
  constructor
  · intro i hi hbad hmin
    exact verify_outOfOrder cfg deep c i hchk hfan hne hi hbad hmin
  · intro hk hasc
    set m := cfg.midx with hm
    have e_at : ∀ n, (swapEntries m k).oid_at_index n =
        if n = k then m.oid_at_index (k + 1)
        else if n = k + 1 then m.oid_at_index k
        else m.oid_at_index n := fun n => rfl
    refine verify_outOfOrder _ deep c k ?_ ?_ ?_ ?_ ?_ ?_
    · exact hchk
    · exact hfan
    · exact hne
    · show k < m.num_objects - 1
      omega
    · show oidCmp ((swapEntries m k).oid_at_index (k + 1))
        ((swapEntries m k).oid_at_index k) ≠ .gt
      rw [e_at (k + 1), e_at k, if_neg (by omega), if_pos rfl, if_pos rfl]
      have h1 : oidCmp (m.oid_at_index (k + 1)) (m.oid_at_index k) = .gt :=
        hasc k (by omega)
      have h2 := oidCmp_swap (m.oid_at_index (k + 1)) (m.oid_at_index k)
      rw [h1] at h2
      rw [h2]
      simp [Ordering.swap]
    · intro j hj
      show oidCmp ((swapEntries m k).oid_at_index (j + 1))
        ((swapEntries m k).oid_at_index j) = .gt
      rw [e_at (j + 1), e_at j]
      rcases Nat.lt_or_ge (j + 1) k with hjk | hjk
      · rw [if_neg (show ¬ j + 1 = k by omega),
          if_neg (show ¬ j + 1 = k + 1 by omega),
          if_neg (show ¬ j = k by omega),
          if_neg (show ¬ j = k + 1 by omega)]
        exact hasc j (by omega)
      · have hjk' : j + 1 = k := by omega
        rw [if_pos hjk',
          if_neg (show ¬ j = k by omega),
          if_neg (show ¬ j = k + 1 by omega)]
        have hka : oidCmp (m.oid_at_index (k + 1)) (m.oid_at_index k) = .gt :=
          hasc k (by omega)
        have hja : oidCmp (m.oid_at_index (j + 1)) (m.oid_at_index j) = .gt :=
          hasc j (by omega)
        rw [hjk'] at hja
        exact oidCmp_gt_trans _ _ _ hka hja

/-- **C5.**  On a successful deep `verify_integrity` run the outcome
holds exactly one statistics record per index named by `index_names()`
(so every named index was opened and bundle-verified, including indices
referenced by zero entries), in `index_names()` order: the record at
position `p` is precisely the outcome of pack `p`'s bundle
verification. -/
theorem deep_verify_stats_per_index (cfg : Config) (o : Outcome)
    (h : verifyIntegrity cfg = .ok o) :
    o.pack_traverse_statistics.length = cfg.midx.num_indices
    ∧ ∀ p, p < cfg.midx.num_indices → ∃ st,
        cfg.bundleVerify p = .ok st
        ∧ o.pack_traverse_statistics[p]? = some st := by
  simp only [verifyIntegrity, verifyIntegrityInner] at h
  split at h
  · simp at h
  · split at h
    · simp at h
    · split at h
      · simp at h
      · split at h
        · simp at h
        · split at h
          · simp at h
          · rename_i total stats hloop
            split at h
            · rename_i hcount
              rw [RunResult.ok.injEq] at h
              subst h
              obtain ⟨hlen, -, hrec⟩ :=
                packLoop_deep_ok cfg (List.range cfg.midx.num_indices)
                  (entryPlan cfg.midx) 0 [] total stats hloop
              constructor
              · simpa using hlen
              · intro p hp
                obtain ⟨st, hv, ho⟩ := hrec p (by simpa using hp)
                refine ⟨st, ?_, by simpa using ho⟩
                rwa [List.getD_eq_getElem?_getD, List.getElem?_range hp] at hv
            · simp at h

set_option maxRecDepth 4000 in
/-- Witness for `deep_verify_stats_per_index`: the fully consistent
one-pack configuration `cfgC5` succeeds deeply and reports exactly the
statistics record its bundle verifier produced for pack 0. -/
theorem deep_verify_stats_per_index_witness :
    (Outcome.mk [9] [⟨5⟩]).pack_traverse_statistics.length = cfgC5.midx.num_indices
    ∧ ∀ p, p < cfgC5.midx.num_indices → ∃ st,
        cfgC5.bundleVerify p = .ok st
        ∧ (Outcome.mk [9] [⟨5⟩]).pack_traverse_statistics[p]? = some st :=
  deep_verify_stats_per_index cfgC5 ⟨[9], [⟨5⟩]⟩ (by decide)

/-- **C6.**  The Entry Plan is a permutation of the per-entry pairs
(every MIDX entry exactly once) and is pairwise ordered so that pack
ids ascend — hence each pack's entries form one contiguous group — and
entries sharing a pack id keep strictly ascending MIDX entry indices:
the sort by `pack_id` is stable. -/
theorem entry_plan_stable_sorted (m : File) :
    ((entryPlan m).Pairwise fun a b => a.1 < b.1 ∨ (a.1 = b.1 ∧ a.2 < b.2))
    ∧ (entryPlan m).Perm (unsortedPlan m) :=
  ⟨sortPlan_pairwise (unsortedPlan m) (unsortedPlan_pairwise m),
    sortPlan_perm (unsortedPlan m)⟩

set_option maxRecDepth 4000 in
/-- Witness for `out_of_order_first_violation`: swapping entries 1 and 2
of the strictly ascending three-entry MIDX of `cfgC4` yields
`OutOfOrder { index := 1 }`. -/
theorem out_of_order_first_violation_witness :
    verifyIntegrityInner { cfgC4 with midx := swapEntries cfgC4.midx 1 } false =
      .err (.processor (.outOfOrder 1)) :=
  (out_of_order_first_violation cfgC4 false [9] 1 rfl (by decide) (by decide)).2
    (by decide) (by decide)

end Midx

namespace Sideband

/-- **C3, counterexample.**  A valid sideband stream containing a
band-1 line with an *empty* payload mid-stream: the reader's window for
that line is `[5, 5)`, so `fill_buf` returns an empty slice, which is
end-of-file under the `AsyncBufRead`/`AsyncRead` contract.  The caller
therefore receives only the byte 65, while the in-order concatenation
of all band-1 payloads is `[65, 66]` — the claim's equality fails. -/
theorem sideband_data_concat_counterexample :
    sbStreamEmptyMid.all validSideband = true
    ∧ readAll true sbStreamEmptyMid = some ([65], [])
    ∧ band1ConcatSpec sbStreamEmptyMid = [65, 66]
    ∧ (((readAll true sbStreamEmptyMid).map Prod.fst ==
        some (band1ConcatSpec sbStreamEmptyMid)) = false) :=
  ⟨by decide, by decide, by decide, by decide⟩

/-- **C3, amended.**  For every sideband stream read with a progress
handler installed whose band-1 payloads are all *nonempty*, the
concatenation of all bytes delivered to the caller via
`fill_buf`/`read` up to end-of-file equals the in-order concatenation
of the band-1 payloads with the leading band byte stripped (and the
handler sees exactly the band-2/3 events); for each data line the
exposed window is bytes
`[U16_HEX_BYTES + 1, U16_HEX_BYTES + 1 + payload_len)` of the parent's
line buffer, which slice to exactly the payload. -/
theorem sideband_data_concat (stream : List Item)
    (hv : stream.all validSideband = true)
    (hn : stream.all band1Nonempty = true) :
    readAll true stream = some (band1ConcatSpec stream, bandEventsSpec stream)
    ∧ (∀ (hdr d : List Nat) (rest : List Item)
        (events : List (Bool × List Nat)),
        hdr.length = U16_HEX_BYTES →
        fillBufLoop true events (.line hdr (.data (1 :: d)) :: rest) =
          (rest, events,
            .window (hdr ++ 1 :: d) (U16_HEX_BYTES + 1)
              (U16_HEX_BYTES + 1 + d.length))
        ∧ sliceOf (hdr ++ 1 :: d) (U16_HEX_BYTES + 1)
            (U16_HEX_BYTES + 1 + d.length) = d) := by
  constructor
  · have h := readAllGo_spec stream (stream.length + 1) []
      (Nat.lt_succ_self _) hv hn
    simpa [readAll] using h
  · intro hdr d rest events hhdr
    exact ⟨rfl, sliceOf_band hdr d 1 hhdr⟩

/-- Witness for `sideband_data_concat` at the concrete stream
`sbStreamGood`: the caller reads `[65, 66]`, the handler sees a
progress event and an error event, and the concrete band-1 window for
header `sbHdr` and payload `[65]` is `[5, 7)`. -/
theorem sideband_data_concat_witness :
    readAll true sbStreamGood =
      some ([65, 66], [(false, [72]), (true, [69])])
    ∧ fillBufLoop true [] (.line sbHdr (.data (1 :: [65])) :: []) =
      ([], [], .window (sbHdr ++ 1 :: [65]) (U16_HEX_BYTES + 1)
        (U16_HEX_BYTES + 1 + 1))
    ∧ sliceOf (sbHdr ++ 1 :: [65]) (U16_HEX_BYTES + 1)
        (U16_HEX_BYTES + 1 + 1) = [65] := by
  have h := sideband_data_concat sbStreamGood (by decide) (by decide)
  refine ⟨?_, ?_, ?_⟩
  · rw [h.1]; decide
  · exact (h.2 sbHdr [65] [] [] (by decide)).1
  · exact (h.2 sbHdr [65] [] [] (by decide)).2

/-- **C7.**  Without a progress handler, every non-data packet line is
rejected with an io error of kind `UnexpectedEof` (and no other kind),
while a `Data` line is exposed whole: the window is
`[U16_HEX_BYTES, U16_HEX_BYTES + len)` over the parent's line buffer
and slices to the full payload, band byte included. -/
theorem data_only_mode_unexpectedEof
    (hdr d : List Nat) (rest : List Item) (events : List (Bool × List Nat))
    (hhdr : hdr.length = U16_HEX_BYTES) :
    fillBufLoop false events (.line hdr .flush :: rest) =
      (rest, events, .ioError .unexpectedEof)
    ∧ fillBufLoop false events (.line hdr .delim :: rest) =
      (rest, events, .ioError .unexpectedEof)
    ∧ fillBufLoop false events (.line hdr .responseEnd :: rest) =
      (rest, events, .ioError .unexpectedEof)
    ∧ fillBufLoop false events (.line hdr (.data d) :: rest) =
      (rest, events, .window (hdr ++ d) U16_HEX_BYTES (U16_HEX_BYTES + d.length))
    ∧ sliceOf (hdr ++ d) U16_HEX_BYTES (U16_HEX_BYTES + d.length) = d := by
  refine ⟨rfl, rfl, rfl, rfl, ?_⟩
  have := sliceOf_append_full hdr d
  rwa [hhdr] at this

/-- Witness for `data_only_mode_unexpectedEof` at a concrete header and
payload. -/
theorem data_only_mode_unexpectedEof_witness :
    fillBufLoop false [] (.line sbHdr .flush :: []) =
      ([], [], .ioError .unexpectedEof)
    ∧ fillBufLoop false [] (.line sbHdr .delim :: []) =
      ([], [], .ioError .unexpectedEof)
    ∧ fillBufLoop false [] (.line sbHdr .responseEnd :: []) =
      ([], [], .ioError .unexpectedEof)
    ∧ fillBufLoop false [] (.line sbHdr (.data [1, 65]) :: []) =
      ([], [], .window (sbHdr ++ [1, 65]) U16_HEX_BYTES (U16_HEX_BYTES + 2))
    ∧ sliceOf (sbHdr ++ [1, 65]) U16_HEX_BYTES (U16_HEX_BYTES + 2) = [1, 65] :=
  data_only_mode_unexpectedEof sbHdr [1, 65] [] [] rfl

/-- **C8.**  Dropping the reader in the `Idle` state resets exactly the
parent's stop-line state (`stopped_at`, `is_done`) — the record update
shows every other parent field unchanged — while dropping in the
`ReadLine` state performs no mutation at all; `dropReader` is a total
function, so drop never fails. -/
theorem drop_resets_parent_when_idle (p q : Parent) :
    dropReader (.idle p) =
      .idle { p with stopped_at := none, is_done := false }
    ∧ dropReader (.readLine q) = .readLine q :=
  ⟨rfl, rfl⟩

/-- **C10.**  `peek_data_line` collapses to `none` alike when the parent
is exhausted or stopped at a terminator, when the next packet is any
non-data special line (`Flush`, `Delim`, `ResponseEnd`), and when the
reader is suspended in `ReadLine`; `stopped_at` is likewise `none`
while suspended. -/
theorem peek_data_line_none_cases
    (dl : List PacketLine) (sa : Option PacketLine)
    (done : Bool) (buf hdr : List Nat) (rest : List Item) (q : Parent) :
    peekDataLine (.idle ⟨[], dl, sa, done, buf⟩) = none
    ∧ peekDataLine (.idle ⟨.line hdr .flush :: rest, dl, sa, done, buf⟩) = none
    ∧ peekDataLine (.idle ⟨.line hdr .delim :: rest, dl, sa, done, buf⟩) = none
    ∧ peekDataLine (.idle ⟨.line hdr .responseEnd :: rest, dl, sa, done, buf⟩) = none
    ∧ peekDataLine (.readLine q) = none
    ∧ stoppedAt (.readLine q) = none := by
  refine ⟨rfl, ?_, ?_, ?_, rfl, rfl⟩
  · by_cases h : PacketLine.flush ∈ dl <;> simp [peekDataLine, Parent.peekLine, h]
  · by_cases h : PacketLine.delim ∈ dl <;> simp [peekDataLine, Parent.peekLine, h]
  · by_cases h : PacketLine.responseEnd ∈ dl <;>
      simp [peekDataLine, Parent.peekLine, h]

end Sideband
